import Mathlib

/-!
Verification development for the currency converter (`script.js`).

The program is a browser currency converter.  Its mutable global state
(`ratesCache`, `autoUpdateEnabled`, `updateIntervalId`, `lastUpdateTime`),
the DOM input fields it reads (`amount.value`, `fromCurrency.value`,
`toCurrency.value`) and the DOM output fields it writes (`amountError`,
`resultAmount`, `exchangeRate`) are embedded as one explicit state record
`AppState`; the `localStorage` history list is the `history` field.

JavaScript numbers are modelled as exact rationals (`ℚ`): every quantity the
claims are about (amounts, rates, 2-decimal rounded results) is produced by
exact arithmetic followed by `toFixed(2)` rounding, which is modelled as
rounding to the nearest multiple of 1/100.  External nondeterminism (the
network response of a fetch, `Date.now()`, display timestamps, fresh timer
handles) is passed in as explicit parameters.

Each state-transforming function returns, next to the new state, the list of
error messages displayed (calls to `showError`) during that invocation, so
that "exactly one displayed error message" is statable.
-/

namespace CurrencyConverter

/-- One entry of the persisted conversion history, from `addToHistory` in
`script.js`: `{ id: Date.now(), fromCurr, toCurr, amount: amt, converted,
timestamp }`.  `converted` holds the exact value of the 2-decimal result (in
the source it is the `toFixed(2)` string; for the non-negative values the
program produces, that string and the rounded value determine each other). -/
structure Entry where
  id : Nat
  fromCurr : String
  toCurr : String
  amount : ℚ
  converted : ℚ
  timestamp : String
deriving DecidableEq

/-- Outcome of the awaited network call inside `fetchRatesOnce`:
the promise rejects (`netError`), resolves with `!response.ok`
(`httpError`), the body fails to parse (`malformed`), or it succeeds with a
rates object, modelled as an association list currency code to rate. -/
inductive FetchResponse where
  | netError
  | httpError
  | malformed
  | ok (rates : List (String × ℚ))
deriving DecidableEq

/-- The program state: the global variables of `script.js`, the DOM inputs it
reads and the DOM outputs the claims mention, plus the persisted history.
`cancelledTimers` records the handles passed to `clearInterval`, so that
"the existing timer is left live" versus "the timer was cancelled and a new
one armed" is observable in the model. -/
structure AppState where
  ratesCache : List (String × ℚ)
  history : List Entry
  amountErrorMsg : Option String
  resultAmount : Option ℚ
  resultRate : Option ℚ
  autoUpdateEnabled : Bool
  updateIntervalId : Option Nat
  cancelledTimers : List Nat
  lastUpdateTime : Option Nat
  amountValue : String
  fromCurrencyValue : String
  toCurrencyValue : String
deriving DecidableEq

/-- Model of JavaScript `String.prototype.trim`: drop whitespace from both
ends (the source only ever tests the result against the empty string). -/
def jsTrim (s : String) : List Char :=
  ((s.toList.dropWhile Char.isWhitespace).reverse.dropWhile Char.isWhitespace).reverse

/-- Value of a list of decimal digit characters. -/
def digitsToNat (ds : List Char) : Nat :=
  ds.foldl (fun acc d => 10 * acc + (d.toNat - 48)) 0

/-- Model of JavaScript `parseFloat` after leading whitespace has been
dropped: optional sign, integer digits, optional fraction after a dot,
optional exponent.  Returns `none` exactly when `parseFloat` returns `NaN`
(no digit could be consumed).  The special literal `Infinity` is not
modelled; no claim involves it. -/
def parseFloatCore (cs : List Char) : Option ℚ :=
  let signAndRest : ℚ × List Char :=
    match cs with
    | c :: rest =>
      if c = '-' then ((-1 : ℚ), rest)
      else if c = '+' then ((1 : ℚ), rest)
      else ((1 : ℚ), cs)
    | [] => ((1 : ℚ), cs)
  let sign := signAndRest.1
  let cs1 := signAndRest.2
  let intPart := cs1.takeWhile Char.isDigit
  let cs2 := cs1.dropWhile Char.isDigit
  let fracAndRest : List Char × List Char :=
    match cs2 with
    | c :: rest =>
      if c = '.' then (rest.takeWhile Char.isDigit, rest.dropWhile Char.isDigit)
      else (([] : List Char), cs2)
    | [] => (([] : List Char), cs2)
  let fracPart := fracAndRest.1
  let cs3 := fracAndRest.2
  if intPart.isEmpty && fracPart.isEmpty then none
  else
    let mantissa : ℚ :=
      (digitsToNat intPart : ℚ) + (digitsToNat fracPart : ℚ) / ((10 : ℚ) ^ fracPart.length)
    let expVal : ℤ :=
      match cs3 with
      | c :: rest =>
        if c = 'e' ∨ c = 'E' then
          let esignAndRest : ℤ × List Char :=
            match rest with
            | d :: r2 =>
              if d = '-' then ((-1 : ℤ), r2)
              else if d = '+' then ((1 : ℤ), r2)
              else ((1 : ℤ), rest)
            | [] => ((1 : ℤ), rest)
          let eDigits := esignAndRest.2.takeWhile Char.isDigit
          if eDigits.isEmpty then 0 else esignAndRest.1 * (digitsToNat eDigits : ℤ)
        else 0
      | [] => 0
    some (sign * mantissa * (10 : ℚ) ^ expVal)

/-- Model of JavaScript `parseFloat` on a string: skip leading whitespace,
then parse a float prefix. -/
def parseFloatQ (s : String) : Option ℚ :=
  parseFloatCore (s.toList.dropWhile Char.isWhitespace)

/-- `isValidAmount` from `script.js`:
`amount.value && !isNaN(parseFloat(amount.value)) && parseFloat(amount.value) > 0`
(a truthy string is a nonempty string). -/
def isValidAmount (s : String) : Bool :=
  if s = "" then false
  else
    match parseFloatQ s with
    | some v => decide (0 < v)
    | none => false

/-- The validation failures of the spec taxonomy; the first three are raised
by `validateInput`, the fourth by the `!rate` check in `performConversion`. -/
inductive ConvError where
  | EmptyInput
  | InvalidNumber
  | NonPositiveAmount
  | RateUnavailable
deriving DecidableEq

/-- The exact message `script.js` displays for each failure. -/
def errMsg : ConvError → String
  | ConvError.EmptyInput => "Please enter an amount"
  | ConvError.InvalidNumber => "Please enter a valid number"
  | ConvError.NonPositiveAmount => "Amount must be greater than 0"
  | ConvError.RateUnavailable => "Conversion failed. Please try again."

/-- `validateInput` from `script.js`, as a pure classifier: the blank check
(`amount.value.trim() === ''`) runs first, then the `isNaN(parseFloat(...))`
check, then the `amountValue <= 0` check; `none` means valid.  (In the source
each failing branch also calls `showError`; the model performs that call at
the use site in `performConversion`, with the same single message.) -/
def validateInput (s : String) : Option ConvError :=
  if jsTrim s = [] then some ConvError.EmptyInput
  else
    match parseFloatQ s with
    | none => some ConvError.InvalidNumber
    | some v => if v ≤ 0 then some ConvError.NonPositiveAmount else none

/-- `showError` from `script.js`: sets the `amountError` element text and
shows it (one displayed message, replacing any previous one). -/
def showError (message : String) (st : AppState) : AppState :=
  { st with amountErrorMsg := some message }

/-- Model of `Number.prototype.toFixed(2)`: round to the nearest multiple of
1/100 (ties rounded up, which agrees with `toFixed` for the positive values
the program produces). -/
def round2 (x : ℚ) : ℚ := ((round (x * 100) : ℤ) : ℚ) / 100

/-- `displayResult` from `script.js`, restricted to the fields the claims
mention: shows the converted amount and the rate used. -/
def displayResult (converted rate : ℚ) (st : AppState) : AppState :=
  { st with resultAmount := some converted, resultRate := some rate }

/-- The duplicate test of `addToHistory`: the most recent entry
(`history[0]`) exists and agrees with the new conversion on all four fields
`fromCurr`, `toCurr`, `amount`, `converted`. -/
def isDupOfLast (history : List Entry) (fromCurr toCurr : String) (amt conv : ℚ) : Bool :=
  match history with
  | lastEntry :: _ =>
    decide (lastEntry.fromCurr = fromCurr) && decide (lastEntry.toCurr = toCurr) &&
      decide (lastEntry.amount = amt) && decide (lastEntry.converted = conv)
  | [] => false

/-- The tail of `addToHistory`: `history.unshift(entry)` then
`if (history.length > 50) history = history.slice(0, 50)`. -/
def pushEntry (e : Entry) (history : List Entry) : List Entry :=
  let h1 := e :: history
  if h1.length > 50 then h1.take 50 else h1

/-- `addToHistory` from `script.js`: skip when the new conversion duplicates
the most recent entry, otherwise prepend a fresh entry (id and display
timestamp supplied by the environment) and truncate to 50.  The persisted
list is the returned list. -/
def addToHistory (fromCurr toCurr : String) (amt conv : ℚ) (newId : Nat) (ts : String)
    (history : List Entry) : List Entry :=
  if isDupOfLast history fromCurr toCurr amt conv then history
  else pushEntry ⟨newId, fromCurr, toCurr, amt, conv, ts⟩ history

/-- `deleteHistoryItem` from `script.js`:
`history.filter(entry => entry.id !== id)`, persisted back. -/
def deleteHistoryItem (i : Nat) (history : List Entry) : List Entry :=
  history.filter (fun e => e.id != i)

/-- `performConversion` from `script.js`.  Validates, looks the target
currency up in the cache, checks the looked-up value for truthiness
(`if (!rate) throw`, so an absent key and a present key holding `0` both
fail), computes `(amt * rate).toFixed(2)`, displays the result and appends
to history.  The rate-unavailable throw is caught by the surrounding
`try`/`catch`, which displays the generic conversion-failure message.
Returns the new state and the messages displayed during the call. -/
def performConversion (newId : Nat) (ts : String) (st : AppState) : AppState × List String :=
  match validateInput st.amountValue with
  | some e => (showError (errMsg e) st, [errMsg e])
  | none =>
    let fromCurr := st.fromCurrencyValue
    let toCurr := st.toCurrencyValue
    let amt := (parseFloatQ st.amountValue).getD 0
    match List.lookup toCurr st.ratesCache with
    | none =>
      (showError (errMsg ConvError.RateUnavailable) st, [errMsg ConvError.RateUnavailable])
    | some rate =>
      if rate = 0 then
        (showError (errMsg ConvError.RateUnavailable) st, [errMsg ConvError.RateUnavailable])
      else
        let converted := round2 (amt * rate)
        let st1 := displayResult converted rate st
        let st2 :=
          { st1 with history := addToHistory fromCurr toCurr amt converted newId ts st1.history }
        (st2, [])

/-- The message `fetchRatesOnce` displays on any failure. -/
def fetchFailMsg : String := "Failed to fetch rates. Please check your internet connection."

/-- The async function `fetchRatesOnce` from `script.js`, as the state
transformation it has performed once its awaited network call has resolved
with `resp` at time `now`: on success it itself overwrites `ratesCache` with
the fetched rates object and updates `lastUpdateTime`; on any failure the
`catch` block displays `fetchFailMsg` and the cache is untouched.  (The
pre-await prefix of the function has no observable effect, so the whole
call is modelled at its resolution point.) -/
def fetchRatesOnce (resp : FetchResponse) (now : Nat) (st : AppState) : AppState × List String :=
  match resp with
  | FetchResponse.ok rates => ({ st with ratesCache := rates, lastUpdateTime := some now }, [])
  | _ => (showError fetchFailMsg st, [fetchFailMsg])

/-- True exactly on the failure outcomes of a fetch. -/
def fetchFailed : FetchResponse → Bool
  | FetchResponse.ok _ => false
  | _ => true

/-- `startAutoUpdate` from `script.js`: `clearInterval` any existing timer,
call `fetchRatesOnce()` immediately, then arm a fresh interval timer whose
handle is `newHandle` (supplied by the environment, as `setInterval` does). -/
def startAutoUpdate (resp : FetchResponse) (now newHandle : Nat) (st : AppState) :
    AppState × List String :=
  let st0 :=
    match st.updateIntervalId with
    | some h => { st with cancelledTimers := h :: st.cancelledTimers, updateIntervalId := none }
    | none => st
  let fr := fetchRatesOnce resp now st0
  ({ fr.1 with updateIntervalId := some newHandle }, fr.2)

/-- The `setInterval` callback armed by `startAutoUpdate`, together with the
deferred resolution of the fetch it starts.  The callback body is
synchronous and calls `fetchRatesOnce()` WITHOUT awaiting it; by the
JavaScript event loop, `fetchRatesOnce` suspends at its `await fetch(...)`
before touching `ratesCache`, so the rest of the callback — including the
`performConversion()` it triggers when a valid amount is pending — runs
first, and the fetched snapshot is applied to the cache only afterwards.
The model therefore runs the conversion on the pre-tick state and applies
`fetchRatesOnce resp` after it.  When `autoUpdateEnabled` is false the whole
tick is a no-op. -/
def autoUpdateTick (resp : FetchResponse) (now newId : Nat) (ts : String) (st : AppState) :
    AppState × List String :=
  if st.autoUpdateEnabled then
    let conv := if isValidAmount st.amountValue then performConversion newId ts st else (st, [])
    let fr := fetchRatesOnce resp now conv.1
    (fr.1, conv.2 ++ fr.2)
  else (st, [])

/-- `toggleAutoUpdateMode` from `script.js`: flip `autoUpdateEnabled`; when
the new value is true, call `startAutoUpdate()` (which cancels the old timer,
fetches immediately and arms a fresh timer); when it is false, do nothing
else (button styling is presentation and out of scope). -/
def toggleAutoUpdateMode (resp : FetchResponse) (now newHandle : Nat) (st : AppState) :
    AppState × List String :=
  let st1 := { st with autoUpdateEnabled := !st.autoUpdateEnabled }
  if st1.autoUpdateEnabled then startAutoUpdate resp now newHandle st1 else (st1, [])

/-- A base state used by concrete witnesses: empty cache and history, no
message shown, auto-update on, no timer armed yet. -/
def st0 : AppState where
  ratesCache := []
  history := []
  amountErrorMsg := none
  resultAmount := none
  resultRate := none
  autoUpdateEnabled := true
  updateIntervalId := none
  cancelledTimers := []
  lastUpdateTime := none
  amountValue := ""
  fromCurrencyValue := "USD"
  toCurrencyValue := "EUR"

/-! ### Helper lemmas about parsing and validation -/

lemma parseFloatCore_nil : parseFloatCore [] = none := rfl

lemma not_head_dropWhile {p : Char → Bool} :
    ∀ (l : List Char) (c : Char) (t : List Char), l.dropWhile p = c :: t → p c = false := by
  intro l
  induction l with
  | nil => intro c t h; simp [List.dropWhile] at h
  | cons a as ih =>
    intro c t h
    rw [List.dropWhile_cons] at h
    by_cases hpa : p a = true
    · rw [if_pos hpa] at h; exact ih c t h
    · rw [if_neg hpa] at h
      cases h
      simpa using hpa

lemma jsTrim_eq_nil_iff (s : String) :
    jsTrim s = [] ↔ s.toList.dropWhile Char.isWhitespace = [] := by
  unfold jsTrim
  constructor
  · intro h
    rw [List.reverse_eq_nil_iff] at h
    have hall := List.dropWhile_eq_nil_iff.mp h
    cases hL : s.toList.dropWhile Char.isWhitespace with
    | nil => rfl
    | cons c t =>
      have hc : Char.isWhitespace c = false := not_head_dropWhile _ c t hL
      have hcmem : c ∈ (s.toList.dropWhile Char.isWhitespace).reverse := by
        rw [hL]; simp
      have hct := hall c hcmem
      rw [hc] at hct
      exact absurd hct (by simp)
  · intro h; rw [h]; rfl

lemma parseFloatQ_eq_none_of_blank {s : String} (h : jsTrim s = []) : parseFloatQ s = none := by
  unfold parseFloatQ
  rw [(jsTrim_eq_nil_iff s).mp h]
  exact parseFloatCore_nil

lemma jsTrim_ne_nil_of_parse {s : String} {a : ℚ} (h : parseFloatQ s = some a) :
    jsTrim s ≠ [] := by
  intro hb
  rw [parseFloatQ_eq_none_of_blank hb] at h
  exact Option.noConfusion h

lemma validateInput_eq_none {s : String} {a : ℚ} (hp : parseFloatQ s = some a) (ha : 0 < a) :
    validateInput s = none := by
  unfold validateInput
  rw [if_neg (jsTrim_ne_nil_of_parse hp), hp]
  exact if_neg (not_le.mpr ha)

/-! ### Helper lemmas about performConversion and fetchRatesOnce -/

lemma performConversion_of_invalid {nid : Nat} {ts : String} {st : AppState} {e : ConvError}
    (hv : validateInput st.amountValue = some e) :
    performConversion nid ts st = (showError (errMsg e) st, [errMsg e]) := by
  simp [performConversion, hv]

lemma performConversion_of_noRate {nid : Nat} {ts : String} {st : AppState}
    (hv : validateInput st.amountValue = none)
    (hl : List.lookup st.toCurrencyValue st.ratesCache = none) :
    performConversion nid ts st =
      (showError (errMsg ConvError.RateUnavailable) st, [errMsg ConvError.RateUnavailable]) := by
  simp [performConversion, hv, hl]

lemma performConversion_of_zeroRate {nid : Nat} {ts : String} {st : AppState}
    (hv : validateInput st.amountValue = none)
    (hl : List.lookup st.toCurrencyValue st.ratesCache = some 0) :
    performConversion nid ts st =
      (showError (errMsg ConvError.RateUnavailable) st, [errMsg ConvError.RateUnavailable]) := by
  simp [performConversion, hv, hl]

lemma performConversion_success {nid : Nat} {ts : String} {st : AppState} {a r : ℚ}
    (hp : parseFloatQ st.amountValue = some a) (ha : 0 < a)
    (hl : List.lookup st.toCurrencyValue st.ratesCache = some r) (hr : r ≠ 0) :
    performConversion nid ts st =
      ({ st with
          resultAmount := some (round2 (a * r)),
          resultRate := some r,
          history := addToHistory st.fromCurrencyValue st.toCurrencyValue a (round2 (a * r))
            nid ts st.history }, []) := by
  simp [performConversion, validateInput_eq_none hp ha, hl, hp, hr, displayResult]

lemma fetchRatesOnce_failed {resp : FetchResponse} {now : Nat} {st : AppState}
    (h : fetchFailed resp = true) :
    fetchRatesOnce resp now st = (showError fetchFailMsg st, [fetchFailMsg]) := by
  cases resp <;> simp_all [fetchRatesOnce, fetchFailed]

lemma fetchRatesOnce_resultAmount (resp : FetchResponse) (now : Nat) (st : AppState) :
    (fetchRatesOnce resp now st).1.resultAmount = st.resultAmount := by
  cases resp <;> rfl

/-! ### Claim C1 -/

/-- C1: for every conversion request whose amount parses to a positive number
and whose target currency has a (positive, per the snapshot invariant) rate r
in the current cache snapshot, `performConversion` displays a converted
amount equal to `round2 (amount * r)`, shows no error message, and leaves the
rate cache unchanged. -/
theorem C1_performConversion_rounds_and_preserves_cache
    (nid : Nat) (ts : String) (st : AppState) (a r : ℚ)
    (hp : parseFloatQ st.amountValue = some a) (ha : 0 < a)
    (hl : List.lookup st.toCurrencyValue st.ratesCache = some r) (hr : 0 < r) :
    (performConversion nid ts st).1.ratesCache = st.ratesCache ∧
      (performConversion nid ts st).1.resultAmount = some (round2 (a * r)) ∧
      (performConversion nid ts st).2 = [] := by
  rw [performConversion_success hp ha hl (ne_of_gt hr)]
  exact ⟨rfl, rfl, rfl⟩

/-- Concrete state for the C1 witness: amount "100", cached EUR rate 0.92. -/
def stC1 : AppState := { st0 with amountValue := "100", ratesCache := [("EUR", (92 : ℚ)/100)] }

/-- Witness for C1: amount 100 at rate 0.92 converts to round2 92 = 92 with
the cache untouched. -/
theorem C1_witness :
    parseFloatQ stC1.amountValue = some 100 ∧ (0 : ℚ) < 100 ∧
      List.lookup stC1.toCurrencyValue stC1.ratesCache = some ((92 : ℚ)/100) ∧
      (0 : ℚ) < (92 : ℚ)/100 ∧
      ((performConversion 7 "t" stC1).1.ratesCache = stC1.ratesCache ∧
        (performConversion 7 "t" stC1).1.resultAmount = some (round2 (100 * ((92 : ℚ)/100))) ∧
        (performConversion 7 "t" stC1).2 = []) :=
  ⟨by with_unfolding_all decide, by with_unfolding_all decide, by with_unfolding_all decide,
    by with_unfolding_all decide,
    C1_performConversion_rounds_and_preserves_cache 7 "t" stC1 100 ((92 : ℚ)/100)
      (by with_unfolding_all decide) (by with_unfolding_all decide)
      (by with_unfolding_all decide) (by with_unfolding_all decide)⟩

/-! ### Claim C2 -/

lemma validateInput_empty {s : String} (h : jsTrim s = []) :
    validateInput s = some ConvError.EmptyInput := by
  unfold validateInput
  rw [if_pos h]

lemma validateInput_nan {s : String} (h1 : jsTrim s ≠ []) (h2 : parseFloatQ s = none) :
    validateInput s = some ConvError.InvalidNumber := by
  unfold validateInput
  rw [if_neg h1, h2]

lemma validateInput_nonpos {s : String} {v : ℚ} (h1 : jsTrim s ≠ [])
    (h2 : parseFloatQ s = some v) (h3 : v ≤ 0) :
    validateInput s = some ConvError.NonPositiveAmount := by
  unfold validateInput
  rw [if_neg h1, h2]
  exact if_pos h3

/-- C2: for every conversion attempt the validation checks run in the fixed
order blank amount, unparseable amount, nonpositive amount, rate unavailable
(absent key or falsy cached value); the first failing check wins, it
short-circuits the rest, and each failure displays exactly one error
message, namely the one for that check. -/
theorem C2_validation_order (nid : Nat) (ts : String) (st : AppState) :
    (jsTrim st.amountValue = [] →
      performConversion nid ts st =
        (showError (errMsg ConvError.EmptyInput) st, [errMsg ConvError.EmptyInput])) ∧
    (jsTrim st.amountValue ≠ [] → parseFloatQ st.amountValue = none →
      performConversion nid ts st =
        (showError (errMsg ConvError.InvalidNumber) st, [errMsg ConvError.InvalidNumber])) ∧
    (∀ v : ℚ, jsTrim st.amountValue ≠ [] → parseFloatQ st.amountValue = some v → v ≤ 0 →
      performConversion nid ts st =
        (showError (errMsg ConvError.NonPositiveAmount) st,
          [errMsg ConvError.NonPositiveAmount])) ∧
    (∀ v : ℚ, parseFloatQ st.amountValue = some v → 0 < v →
      (List.lookup st.toCurrencyValue st.ratesCache = none ∨
        List.lookup st.toCurrencyValue st.ratesCache = some 0) →
      performConversion nid ts st =
        (showError (errMsg ConvError.RateUnavailable) st, [errMsg ConvError.RateUnavailable])) := by
  refine ⟨?_, ?_, ?_, ?_⟩
  · intro h
    exact performConversion_of_invalid (validateInput_empty h)
  · intro h1 h2
    exact performConversion_of_invalid (validateInput_nan h1 h2)
  · intro v h1 h2 h3
    exact performConversion_of_invalid (validateInput_nonpos h1 h2 h3)
  · intro v h2 h3 h4
    rcases h4 with h4 | h4
    · exact performConversion_of_noRate (validateInput_eq_none h2 h3) h4
    · exact performConversion_of_zeroRate (validateInput_eq_none h2 h3) h4

/-- Concrete states for the C2 witness: blank, non-numeric, negative, and a
valid amount with a target currency absent from the cache. -/
def stC2b : AppState := { st0 with amountValue := "abc" }

/-- C2 witness state with a negative amount. -/
def stC2c : AppState := { st0 with amountValue := "-5" }

/-- C2 witness state with a valid amount and an uncached target currency. -/
def stC2d : AppState :=
  { st0 with
    amountValue := "100"
    toCurrencyValue := "XYZ"
    ratesCache := [("EUR", (92 : ℚ)/100)] }

/-- Witness for C2: each of the four validation failures observed at a
concrete input, each displaying its single message. -/
theorem C2_validation_order_witness :
    (performConversion 1 "t" st0 =
      (showError (errMsg ConvError.EmptyInput) st0, [errMsg ConvError.EmptyInput])) ∧
    (performConversion 1 "t" stC2b =
      (showError (errMsg ConvError.InvalidNumber) stC2b, [errMsg ConvError.InvalidNumber])) ∧
    (performConversion 1 "t" stC2c =
      (showError (errMsg ConvError.NonPositiveAmount) stC2c,
        [errMsg ConvError.NonPositiveAmount])) ∧
    (performConversion 1 "t" stC2d =
      (showError (errMsg ConvError.RateUnavailable) stC2d, [errMsg ConvError.RateUnavailable])) :=
  ⟨(C2_validation_order 1 "t" st0).1 (by with_unfolding_all decide),
    (C2_validation_order 1 "t" stC2b).2.1 (by with_unfolding_all decide)
      (by with_unfolding_all decide),
    (C2_validation_order 1 "t" stC2c).2.2.1 (-5) (by with_unfolding_all decide)
      (by with_unfolding_all decide) (by with_unfolding_all decide),
    (C2_validation_order 1 "t" stC2d).2.2.2 100 (by with_unfolding_all decide)
      (by with_unfolding_all decide) (Or.inl (by with_unfolding_all decide))⟩

/-! ### Claim C10 -/

/-- C10: a target currency key that is present in the cache but maps to a
falsy rate value (0) takes the rate-unavailable error path: the single
conversion-failure message is displayed and neither the displayed result nor
the history changes, so no converted amount of 0 is produced.  Availability
is truthiness of the looked-up value, not key presence. -/
theorem C10_zero_rate_is_unavailable (nid : Nat) (ts : String) (st : AppState)
    (hv : validateInput st.amountValue = none)
    (hl : List.lookup st.toCurrencyValue st.ratesCache = some 0) :
    performConversion nid ts st =
      (showError (errMsg ConvError.RateUnavailable) st, [errMsg ConvError.RateUnavailable]) ∧
    (performConversion nid ts st).1.resultAmount = st.resultAmount ∧
    (performConversion nid ts st).1.history = st.history := by
  have h := @performConversion_of_zeroRate nid ts st hv hl
  refine ⟨h, ?_, ?_⟩ <;> rw [h] <;> rfl

/-- C10 witness state: valid amount 5, cached rate for EUR present but 0. -/
def stC10 : AppState := { st0 with amountValue := "5", ratesCache := [("EUR", (0 : ℚ))] }

/-- Witness for C10 at a cache where EUR is present with rate 0. -/
theorem C10_witness :
    validateInput stC10.amountValue = none ∧
    List.lookup stC10.toCurrencyValue stC10.ratesCache = some 0 ∧
    (performConversion 3 "t" stC10 =
      (showError (errMsg ConvError.RateUnavailable) stC10, [errMsg ConvError.RateUnavailable]) ∧
      (performConversion 3 "t" stC10).1.resultAmount = stC10.resultAmount ∧
      (performConversion 3 "t" stC10).1.history = stC10.history) :=
  ⟨by with_unfolding_all decide, by with_unfolding_all decide,
    C10_zero_rate_is_unavailable 3 "t" stC10 (by with_unfolding_all decide)
      (by with_unfolding_all decide)⟩

/-! ### Helper lemmas about the history store -/

lemma pushEntry_head (e : Entry) (h : List Entry) : ∃ tl, pushEntry e h = e :: tl := by
  unfold pushEntry
  by_cases hl : (e :: h).length > 50
  · rw [if_pos hl]
    exact ⟨h.take 49, rfl⟩
  · rw [if_neg hl]
    exact ⟨h, rfl⟩

lemma addToHistory_of_dup (f t : String) (a c : ℚ) (i : Nat) (ts : String) (h : List Entry)
    (hd : isDupOfLast h f t a c = true) : addToHistory f t a c i ts h = h := by
  unfold addToHistory
  rw [if_pos hd]

lemma addToHistory_of_not_dup (f t : String) (a c : ℚ) (i : Nat) (ts : String) (h : List Entry)
    (hd : isDupOfLast h f t a c = false) :
    addToHistory f t a c i ts h = pushEntry ⟨i, f, t, a, c, ts⟩ h := by
  simp [addToHistory, hd]

lemma isDupOfLast_addToHistory (f t : String) (a c : ℚ) (i : Nat) (ts : String)
    (h : List Entry) : isDupOfLast (addToHistory f t a c i ts h) f t a c = true := by
  cases hd : isDupOfLast h f t a c with
  | true => rw [addToHistory_of_dup f t a c i ts h hd]; exact hd
  | false =>
    rw [addToHistory_of_not_dup f t a c i ts h hd]
    obtain ⟨tl, htl⟩ := pushEntry_head ⟨i, f, t, a, c, ts⟩ h
    rw [htl]
    simp [isDupOfLast]

/-! ### Claim C7 -/

/-- C7: appending a conversion whose four fields (base, target, amount,
converted) equal those of the current most recent entry is a no-op, so two
consecutive appends of the same tuple equal one append; starting from an
empty store, appending the tuple twice leaves exactly one entry; and when
the tuple differs from the most recent entry in any field (or the store is
empty) the new entry is prepended. -/
theorem C7_append_idempotent_on_repeat (h : List Entry) (f t : String) (a c : ℚ)
    (i1 i2 : Nat) (ts1 ts2 : String) :
    addToHistory f t a c i2 ts2 (addToHistory f t a c i1 ts1 h) =
        addToHistory f t a c i1 ts1 h ∧
      (addToHistory f t a c i2 ts2 (addToHistory f t a c i1 ts1 [])).length = 1 ∧
      (isDupOfLast h f t a c = false →
        (addToHistory f t a c i1 ts1 h).head? = some ⟨i1, f, t, a, c, ts1⟩) := by
  refine ⟨?_, ?_, ?_⟩
  · exact addToHistory_of_dup f t a c i2 ts2 _ (isDupOfLast_addToHistory f t a c i1 ts1 h)
  · have h0 : addToHistory f t a c i1 ts1 [] = [⟨i1, f, t, a, c, ts1⟩] := by
      simp [addToHistory, isDupOfLast, pushEntry]
    rw [addToHistory_of_dup f t a c i2 ts2 _ (isDupOfLast_addToHistory f t a c i1 ts1 []), h0]
    rfl
  · intro hd
    rw [addToHistory_of_not_dup f t a c i1 ts1 h hd]
    obtain ⟨tl, htl⟩ := pushEntry_head ⟨i1, f, t, a, c, ts1⟩ h
    rw [htl]
    rfl

/-- Witness for C7: appending (USD, EUR, 1, 2) twice from the empty store
leaves exactly one entry, and the first append prepended it. -/
theorem C7_append_idempotent_on_repeat_witness :
    isDupOfLast [] "USD" "EUR" 1 2 = false ∧
      (addToHistory "USD" "EUR" 1 2 6 "y" (addToHistory "USD" "EUR" 1 2 5 "x" []) =
        addToHistory "USD" "EUR" 1 2 5 "x" []) ∧
      (addToHistory "USD" "EUR" 1 2 6 "y" (addToHistory "USD" "EUR" 1 2 5 "x" [])).length = 1 ∧
      (addToHistory "USD" "EUR" 1 2 5 "x" []).head? = some ⟨5, "USD", "EUR", 1, 2, "x"⟩ :=
  ⟨by with_unfolding_all decide,
    (C7_append_idempotent_on_repeat [] "USD" "EUR" 1 2 5 6 "x" "y").1,
    (C7_append_idempotent_on_repeat [] "USD" "EUR" 1 2 5 6 "x" "y").2.1,
    (C7_append_idempotent_on_repeat [] "USD" "EUR" 1 2 5 6 "x" "y").2.2
      (by with_unfolding_all decide)⟩

/-! ### Claim C8 -/

/-- C8: the stored history never exceeds 50 entries after an append (given it
was within capacity before), and an append to a full 50-entry store that is
not suppressed as a duplicate prepends the new entry and evicts the oldest
(last) entry, keeping the 50 most recent in most-recent-first order. -/
theorem C8_history_capacity (h : List Entry) (f t : String) (a c : ℚ) (i : Nat) (ts : String) :
    (h.length ≤ 50 → (addToHistory f t a c i ts h).length ≤ 50) ∧
      (h.length = 50 → isDupOfLast h f t a c = false →
        addToHistory f t a c i ts h = ⟨i, f, t, a, c, ts⟩ :: h.dropLast) := by
  constructor
  · intro h50
    cases hd : isDupOfLast h f t a c with
    | true => rw [addToHistory_of_dup f t a c i ts h hd]; exact h50
    | false =>
      rw [addToHistory_of_not_dup f t a c i ts h hd]
      unfold pushEntry
      by_cases hl : (⟨i, f, t, a, c, ts⟩ :: h : List Entry).length > 50
      · rw [if_pos hl]
        simp [List.length_take_le]
      · rw [if_neg hl]
        exact Nat.le_of_not_lt hl
  · intro h50 hd
    rw [addToHistory_of_not_dup f t a c i ts h hd]
    unfold pushEntry
    have hl : (⟨i, f, t, a, c, ts⟩ :: h : List Entry).length > 50 := by
      simp [List.length_cons, h50]
    rw [if_pos hl]
    have htake : (⟨i, f, t, a, c, ts⟩ :: h : List Entry).take 50 =
        ⟨i, f, t, a, c, ts⟩ :: h.take 49 := rfl
    rw [htake, List.dropLast_eq_take, h50]

/-- A full 50-entry history used by the C8 witness: entries with ids 100
down to 51, none of which duplicates the appended tuple. -/
def fullHistory : List Entry :=
  (List.range 50).map (fun k => ⟨100 - k, "USD", "EUR", (k : ℚ) + 2, 1, "t"⟩)

/-- Witness for C8: appending to the full 50-entry history keeps the length
at 50, prepending the new entry and dropping the oldest. -/
theorem C8_history_capacity_witness :
    fullHistory.length = 50 ∧ isDupOfLast fullHistory "USD" "EUR" 1 1 = false ∧
      (addToHistory "USD" "EUR" 1 1 7 "s" fullHistory).length ≤ 50 ∧
      addToHistory "USD" "EUR" 1 1 7 "s" fullHistory =
        ⟨7, "USD", "EUR", 1, 1, "s"⟩ :: fullHistory.dropLast :=
  ⟨by with_unfolding_all decide, by with_unfolding_all decide,
    (C8_history_capacity fullHistory "USD" "EUR" 1 1 7 "s").1 (by with_unfolding_all decide),
    (C8_history_capacity fullHistory "USD" "EUR" 1 1 7 "s").2 (by with_unfolding_all decide)
      (by with_unfolding_all decide)⟩

/-! ### Claim C5 -/

/-- First entry of the C5 counterexample list; its id collides with
`e5b` (ids come from Date.now() and can repeat within a millisecond). -/
def e5a : Entry := ⟨1, "USD", "EUR", 1, 1, "t1"⟩

/-- Second entry of the C5 counterexample list, same id as `e5a` but
different fields. -/
def e5b : Entry := ⟨1, "USD", "GBP", 2, 2, "t2"⟩

/-- Counterexample to C5 as stated: on a stored list holding two distinct
entries that share the id 1, deleting id 1 removes both entries, not exactly
one; `deleteHistoryItem` filters out every match. -/
theorem C5_counterexample :
    e5a.id = 1 ∧ e5b.id = 1 ∧ e5a ≠ e5b ∧ deleteHistoryItem 1 [e5a, e5b] = [] := by
  with_unfolding_all decide

lemma deleteHistoryItem_cons (i : Nat) (hd : Entry) (tl : List Entry) :
    deleteHistoryItem i (hd :: tl) =
      if hd.id = i then deleteHistoryItem i tl else hd :: deleteHistoryItem i tl := by
  unfold deleteHistoryItem
  rw [List.filter_cons]
  by_cases hh : hd.id = i
  · simp [hh]
  · simp [hh]

lemma deleteHistoryItem_of_absent (i : Nat) (l : List Entry) (h : ∀ e ∈ l, e.id ≠ i) :
    deleteHistoryItem i l = l := by
  apply List.filter_eq_self.mpr
  intro a ha
  simpa [bne_iff_ne] using h a ha

lemma deleteHistoryItem_length_of_nodup :
    ∀ (l : List Entry) (i : Nat), (l.map Entry.id).Nodup →
      (∃ e ∈ l, e.id = i) → (deleteHistoryItem i l).length + 1 = l.length := by
  intro l
  induction l with
  | nil =>
    intro i _ hex
    rcases hex with ⟨e, he, _⟩
    cases he
  | cons hd tl ih =>
    intro i hnd hex
    rw [List.map_cons, List.nodup_cons] at hnd
    obtain ⟨hni, hndtl⟩ := hnd
    by_cases hhd : hd.id = i
    · have htl : deleteHistoryItem i tl = tl := by
        apply deleteHistoryItem_of_absent
        intro a ha hai
        apply hni
        have hmem : a.id ∈ tl.map Entry.id := List.mem_map_of_mem Entry.id ha
        rw [hai, ← hhd] at hmem
        exact hmem
      rw [deleteHistoryItem_cons, if_pos hhd, htl, List.length_cons]
    · rcases hex with ⟨e, he, hei⟩
      rcases List.mem_cons.mp he with rfl | hetl
      · exact absurd hei hhd
      · rw [deleteHistoryItem_cons, if_neg hhd, List.length_cons, List.length_cons,
          ih i hndtl ⟨e, hetl, hei⟩]

/-- An entry with a distinct id, kept by the C5 witness deletion. -/
def e5c : Entry := ⟨2, "USD", "JPY", 3, 3, "t3"⟩

/-- C5 amended: `deleteHistoryItem` removes every entry whose id matches
(the source filters): no entry with the deleted id survives, every entry
with a different id is retained, and the survivors keep their order
(sublist); it is a no-op when no entry carries the id, and when the stored
ids are pairwise distinct it removes exactly one entry whenever a matching
entry exists. -/
theorem C5_delete_removes_matches (l : List Entry) (i : Nat) :
    (∀ e ∈ deleteHistoryItem i l, e.id ≠ i) ∧
      (∀ e ∈ l, e.id ≠ i → e ∈ deleteHistoryItem i l) ∧
      (deleteHistoryItem i l).Sublist l ∧
      ((∀ e ∈ l, e.id ≠ i) → deleteHistoryItem i l = l) ∧
      ((l.map Entry.id).Nodup → ∀ e ∈ l, e.id = i →
        (deleteHistoryItem i l).length + 1 = l.length) := by
  refine ⟨?_, ?_, List.filter_sublist l, deleteHistoryItem_of_absent i l, ?_⟩
  · intro e he
    unfold deleteHistoryItem at he
    have hp := List.of_mem_filter he
    simpa [bne_iff_ne] using hp
  · intro e he hne
    unfold deleteHistoryItem
    exact List.mem_filter.mpr ⟨he, by simpa [bne_iff_ne] using hne⟩
  · intro hnd e he hei
    exact deleteHistoryItem_length_of_nodup l i hnd ⟨e, he, hei⟩

/-- Witness for the amended C5: deleting id 1 from `[e5a, e5c]` leaves no
entry with id 1 while retaining `e5c`; deleting an absent id from `[e5a]` is
a no-op; and deleting the present id 1 from the duplicate-free `[e5a]`
removes exactly one entry. -/
theorem C5_delete_removes_matches_witness :
    (∀ e ∈ deleteHistoryItem 1 [e5a, e5c], e.id ≠ 1) ∧
      e5c ∈ deleteHistoryItem 1 [e5a, e5c] ∧
      (deleteHistoryItem 2 [e5a]).Sublist [e5a] ∧
      deleteHistoryItem 2 [e5a] = [e5a] ∧
      (deleteHistoryItem 1 [e5a]).length + 1 = ([e5a] : List Entry).length :=
  ⟨(C5_delete_removes_matches [e5a, e5c] 1).1,
    (C5_delete_removes_matches [e5a, e5c] 1).2.1 e5c (by with_unfolding_all decide)
      (by with_unfolding_all decide),
    (C5_delete_removes_matches [e5a] 2).2.2.1,
    (C5_delete_removes_matches [e5a] 2).2.2.2.1 (by with_unfolding_all decide),
    (C5_delete_removes_matches [e5a] 1).2.2.2.2 (by with_unfolding_all decide) e5a
      (by with_unfolding_all decide) (by with_unfolding_all decide)⟩

/-! ### Claim C3 -/

/-- Counterexample to C3 as stated: `fetchRatesOnce` does modify the rate
cache — a successful fetch starting from the empty cache leaves a different
cache behind; the assignment happens inside the fetch operation itself, not
in a caller. -/
theorem C3_counterexample :
    (fetchRatesOnce (FetchResponse.ok [("EUR", (92 : ℚ)/100)]) 0 st0).1.ratesCache ≠
      st0.ratesCache := by
  with_unfolding_all decide

/-- C3 amended: the cache update is performed by the fetch operation itself,
not by a separate caller push: on a successful fetch `fetchRatesOnce`
wholesale-replaces the cache with the fetched snapshot and stamps the update
time; on a failed fetch the cache is unchanged. -/
theorem C3_fetch_updates_cache_itself (resp : FetchResponse) (now : Nat) (st : AppState) :
    (∀ rates, resp = FetchResponse.ok rates →
      fetchRatesOnce resp now st =
        ({ st with ratesCache := rates, lastUpdateTime := some now }, [])) ∧
      (fetchFailed resp = true →
        (fetchRatesOnce resp now st).1.ratesCache = st.ratesCache) := by
  constructor
  · intro rates hr
    subst hr
    rfl
  · intro hf
    rw [fetchRatesOnce_failed hf]
    rfl

/-- Witness for the amended C3: a successful fetch replaces the cache; a
network error leaves it unchanged. -/
theorem C3_fetch_updates_cache_itself_witness :
    fetchRatesOnce (FetchResponse.ok [("EUR", (92 : ℚ)/100)]) 3 st0 =
      ({ st0 with ratesCache := [("EUR", (92 : ℚ)/100)], lastUpdateTime := some 3 }, []) ∧
      fetchFailed FetchResponse.netError = true ∧
      (fetchRatesOnce FetchResponse.netError 3 st0).1.ratesCache = st0.ratesCache :=
  ⟨(C3_fetch_updates_cache_itself (FetchResponse.ok [("EUR", (92 : ℚ)/100)]) 3 st0).1
      [("EUR", (92 : ℚ)/100)] rfl,
    by with_unfolding_all decide,
    (C3_fetch_updates_cache_itself FetchResponse.netError 3 st0).2
      (by with_unfolding_all decide)⟩

/-! ### Claim C9 -/

/-- C9: when a rate fetch fails (unreachable endpoint, non-success status or
malformed body) the rate cache retains its previous value unchanged, and a
subsequent conversion against a currency present in the previously cached
snapshot still succeeds, displaying the rounded product with the old rate
and no error message. -/
theorem C9_failed_fetch_keeps_cache (resp : FetchResponse) (now nid : Nat) (ts : String)
    (st : AppState) (a r : ℚ) (hf : fetchFailed resp = true)
    (hp : parseFloatQ st.amountValue = some a) (ha : 0 < a)
    (hl : List.lookup st.toCurrencyValue st.ratesCache = some r) (hr : 0 < r) :
    (fetchRatesOnce resp now st).1.ratesCache = st.ratesCache ∧
      (performConversion nid ts (fetchRatesOnce resp now st).1).2 = [] ∧
      (performConversion nid ts (fetchRatesOnce resp now st).1).1.resultAmount =
        some (round2 (a * r)) := by
  rw [fetchRatesOnce_failed hf]
  have hp2 : parseFloatQ (showError fetchFailMsg st).amountValue = some a := hp
  have hl2 : List.lookup (showError fetchFailMsg st).toCurrencyValue
      (showError fetchFailMsg st).ratesCache = some r := hl
  refine ⟨rfl, ?_, ?_⟩ <;> rw [performConversion_success hp2 ha hl2 (ne_of_gt hr)]

/-- Witness for C9: after an http failure the cache of `stC1` is intact and
converting 100 at the previously cached rate 0.92 still succeeds. -/
theorem C9_failed_fetch_keeps_cache_witness :
    fetchFailed FetchResponse.httpError = true ∧
      parseFloatQ stC1.amountValue = some 100 ∧
      List.lookup stC1.toCurrencyValue stC1.ratesCache = some ((92 : ℚ)/100) ∧
      ((fetchRatesOnce FetchResponse.httpError 9 stC1).1.ratesCache = stC1.ratesCache ∧
        (performConversion 8 "u" (fetchRatesOnce FetchResponse.httpError 9 stC1).1).2 = [] ∧
        (performConversion 8 "u"
            (fetchRatesOnce FetchResponse.httpError 9 stC1).1).1.resultAmount =
          some (round2 (100 * ((92 : ℚ)/100)))) :=
  ⟨by with_unfolding_all decide, by with_unfolding_all decide, by with_unfolding_all decide,
    C9_failed_fetch_keeps_cache FetchResponse.httpError 9 8 "u" stC1 100 ((92 : ℚ)/100)
      (by with_unfolding_all decide) (by with_unfolding_all decide)
      (by with_unfolding_all decide) (by with_unfolding_all decide)
      (by with_unfolding_all decide)⟩

/-! ### Claim C4 -/

lemma startAutoUpdate_handle (resp : FetchResponse) (now nh : Nat) (st : AppState) :
    (startAutoUpdate resp now nh st).1.updateIntervalId = some nh := by
  cases hI : st.updateIntervalId <;> cases resp <;>
    simp [startAutoUpdate, fetchRatesOnce, showError, hI]

lemma startAutoUpdate_enabled (resp : FetchResponse) (now nh : Nat) (st : AppState) :
    (startAutoUpdate resp now nh st).1.autoUpdateEnabled = st.autoUpdateEnabled := by
  cases hI : st.updateIntervalId <;> cases resp <;>
    simp [startAutoUpdate, fetchRatesOnce, showError, hI]

lemma startAutoUpdate_cancelled (resp : FetchResponse) (now nh hOld : Nat) (st : AppState)
    (hI : st.updateIntervalId = some hOld) :
    (startAutoUpdate resp now nh st).1.cancelledTimers = hOld :: st.cancelledTimers := by
  cases resp <;> simp [startAutoUpdate, fetchRatesOnce, showError, hI]

/-- State for the C4 counterexample: auto-update currently disabled, a live
timer with handle 1, nothing cancelled yet. -/
def st4 : AppState := { st0 with autoUpdateEnabled := false, updateIntervalId := some 1 }

/-- Counterexample to C4 as stated: re-enabling auto-update does NOT merely
let the existing timer resume — `toggleAutoUpdateMode` calls
`startAutoUpdate`, which cancels the live timer (handle 1) and arms a fresh
timer with a new handle (2), so the timer handle changes. -/
theorem C4_counterexample :
    st4.updateIntervalId = some 1 ∧ st4.cancelledTimers = [] ∧
      (toggleAutoUpdateMode (FetchResponse.ok []) 0 2 st4).1.updateIntervalId = some 2 ∧
      (toggleAutoUpdateMode (FetchResponse.ok []) 0 2 st4).1.cancelledTimers = [1] := by
  with_unfolding_all decide

/-- C4 amended: disabling auto-update only sets the enabled flag to false,
leaving the existing timer armed and uncancelled, and ticks while disabled
are no-ops; re-enabling, however, restarts the update system: the existing
timer is cancelled, an immediate fetch happens, and a fresh timer with a new
handle is armed. -/
theorem C4_toggle_behaviour (resp : FetchResponse) (now nh nid : Nat) (ts : String)
    (st : AppState) :
    (st.autoUpdateEnabled = true →
      toggleAutoUpdateMode resp now nh st = ({ st with autoUpdateEnabled := false }, [])) ∧
      (autoUpdateTick resp now nid ts { st with autoUpdateEnabled := false } =
        ({ st with autoUpdateEnabled := false }, [])) ∧
      (st.autoUpdateEnabled = false →
        (toggleAutoUpdateMode resp now nh st).1.autoUpdateEnabled = true ∧
        (toggleAutoUpdateMode resp now nh st).1.updateIntervalId = some nh ∧
        (∀ hOld, st.updateIntervalId = some hOld →
          (toggleAutoUpdateMode resp now nh st).1.cancelledTimers =
            hOld :: st.cancelledTimers)) := by
  refine ⟨?_, ?_, ?_⟩
  · intro h
    simp [toggleAutoUpdateMode, h]
  · simp [autoUpdateTick]
  · intro h
    have hres : toggleAutoUpdateMode resp now nh st =
        startAutoUpdate resp now nh { st with autoUpdateEnabled := true } := by
      simp [toggleAutoUpdateMode, h]
    rw [hres]
    refine ⟨?_, startAutoUpdate_handle resp now nh _, ?_⟩
    · rw [startAutoUpdate_enabled]
    · intro hOld hI
      exact startAutoUpdate_cancelled resp now nh hOld _ hI

/-- State for the C4 witness with auto-update enabled and a live timer. -/
def st4e : AppState := { st0 with updateIntervalId := some 1 }

/-- Witness for the amended C4: disabling only flips the flag of `st4e`;
re-enabling from `st4` arms handle 2 and cancels handle 1. -/
theorem C4_toggle_behaviour_witness :
    (toggleAutoUpdateMode (FetchResponse.ok []) 0 2 st4e =
      ({ st4e with autoUpdateEnabled := false }, [])) ∧
      ((toggleAutoUpdateMode (FetchResponse.ok []) 0 2 st4).1.autoUpdateEnabled = true ∧
        (toggleAutoUpdateMode (FetchResponse.ok []) 0 2 st4).1.updateIntervalId = some 2 ∧
        (toggleAutoUpdateMode (FetchResponse.ok []) 0 2 st4).1.cancelledTimers =
          1 :: st4.cancelledTimers) :=
  ⟨(C4_toggle_behaviour (FetchResponse.ok []) 0 2 7 "t" st4e).1 (by with_unfolding_all decide),
    by
      have h3 := (C4_toggle_behaviour (FetchResponse.ok []) 0 2 7 "t" st4).2.2
        (by with_unfolding_all decide)
      exact ⟨h3.1, h3.2.1, h3.2.2 1 (by with_unfolding_all decide)⟩⟩

/-! ### Claim C6 -/

lemma parseFloatQ_empty : parseFloatQ "" = none := rfl

lemma isValidAmount_of_pos {s : String} {a : ℚ} (hp : parseFloatQ s = some a) (ha : 0 < a) :
    isValidAmount s = true := by
  have hne : s ≠ "" := by
    intro h0
    rw [h0, parseFloatQ_empty] at hp
    exact Option.noConfusion hp
  unfold isValidAmount
  rw [if_neg hne, hp]
  simp [ha]

/-- State for the C6 counterexample: auto-update on, pending amount 1,
pre-tick cache holding EUR at rate 1/2. -/
def st6 : AppState := { st0 with amountValue := "1", ratesCache := [("EUR", (1 : ℚ)/2)] }

/-- Counterexample to C6 as stated: a scheduled tick whose own fetch returns
EUR rate 2 still displays round2(1 * 1/2) = 1/2 computed from the pre-tick
snapshot — the fetched snapshot reaches the cache only after the conversion
(the tick does not await its fetch), so the conversion does not use the
snapshot fetched and cached by that same tick. -/
theorem C6_counterexample :
    (autoUpdateTick (FetchResponse.ok [("EUR", (2 : ℚ))]) 5 9 "t" st6).1.resultAmount =
        some ((1 : ℚ)/2) ∧
      (autoUpdateTick (FetchResponse.ok [("EUR", (2 : ℚ))]) 5 9 "t" st6).1.ratesCache =
        [("EUR", (2 : ℚ))] ∧
      some ((1 : ℚ)/2) ≠ some (round2 ((1 : ℚ) * 2)) := by
  with_unfolding_all decide

/-- C6 amended: the conversion triggered by a scheduled tick always uses the
rate snapshot that was current when the tick started (the most recent
completed fetch): whatever the tick's own unawaited fetch returns, the
displayed amount is the rounded product with the pre-tick cached rate. -/
theorem C6_tick_converts_with_pre_tick_snapshot (resp : FetchResponse) (now nid : Nat)
    (ts : String) (st : AppState) (a r : ℚ) (hen : st.autoUpdateEnabled = true)
    (hp : parseFloatQ st.amountValue = some a) (ha : 0 < a)
    (hl : List.lookup st.toCurrencyValue st.ratesCache = some r) (hr : 0 < r) :
    (autoUpdateTick resp now nid ts st).1.resultAmount = some (round2 (a * r)) := by
  have hval := isValidAmount_of_pos hp ha
  simp only [autoUpdateTick, hen, hval, if_true]
  rw [fetchRatesOnce_resultAmount, performConversion_success hp ha hl (ne_of_gt hr)]

/-- Witness for the amended C6 at `st6`: the tick converts 1 with the old
rate 1/2 even though its fetch returns rate 2. -/
theorem C6_tick_converts_with_pre_tick_snapshot_witness :
    st6.autoUpdateEnabled = true ∧ parseFloatQ st6.amountValue = some 1 ∧
      List.lookup st6.toCurrencyValue st6.ratesCache = some ((1 : ℚ)/2) ∧
      (autoUpdateTick (FetchResponse.ok [("EUR", (2 : ℚ))]) 5 9 "t" st6).1.resultAmount =
        some (round2 (1 * ((1 : ℚ)/2))) :=
  ⟨rfl, by with_unfolding_all decide, by with_unfolding_all decide,
    C6_tick_converts_with_pre_tick_snapshot (FetchResponse.ok [("EUR", (2 : ℚ))]) 5 9 "t" st6 1
      ((1 : ℚ)/2) rfl (by with_unfolding_all decide) (by with_unfolding_all decide)
      (by with_unfolding_all decide) (by with_unfolding_all decide)⟩

end CurrencyConverter
